import Mathlib

/-!
Verification of the MarketGameDev electricity-market game backend.

The definitions below are a shallow embedding of the code in
`market_game_api.py` and `startup.py`: monetary amounts, demand figures and
prices (Python floats) are modelled as rationals, years as integers, and the
per-session database contents as explicit record/list state.  The market
clearing engine itself lives in the `game_orchestrator` module, which is not
part of the two source files; its model is written from the specification
text and marked as such.
-/

namespace MarketGame

/-- Game lifecycle states, from `GameStateEnum` in market_game_api.py. -/
inductive GameState where
  | setup
  | year_planning
  | bidding_open
  | market_clearing
  | year_complete
  | game_complete
deriving DecidableEq, Repr

/-- Plant lifecycle states, from `PlantStatusEnum` in market_game_api.py. -/
inductive PlantStatus where
  | operating
  | under_construction
  | maintenance
  | retired
  | planned
deriving DecidableEq, Repr

/-- Financial fields of a `DBUser` row (budget, debt, equity). -/
structure Utility where
  budget : ℚ
  debt : ℚ
  equity : ℚ
deriving DecidableEq, Repr

/-- Financial update performed by `create_power_plant`
(market_game_api.py lines 549-553): the budget is debited by the full
capital cost, debt increases by 70% of it and equity drops by 30% of it. -/
def commitCapitalApi (u : Utility) (total_capital_cost : ℚ) : Utility :=
  { budget := u.budget - total_capital_cost
    debt := u.debt + total_capital_cost * (7/10)
    equity := u.equity - total_capital_cost * (3/10) }

/-- Financial update performed by `create_sample_data`
(startup.py lines 252-257): debt is set to 70% of the invested total while
budget and equity are each debited by 30% of it. -/
def commitCapitalStartup (u : Utility) (total_invested : ℚ) : Utility :=
  { budget := u.budget - total_invested * (3/10)
    debt := total_invested * (7/10)
    equity := u.equity - total_invested * (3/10) }

/-- Guarded financial posting of `create_power_plant`: the update runs only
when the utility row was found (the `if utility:` guard), so either all
three fields change or none does. -/
def plantFinancing (u : Option Utility) (total_capital_cost : ℚ) : Option Utility :=
  u.map (fun x => commitCapitalApi x total_capital_cost)

/-- Timing and lifecycle fields of a `DBGameSession` row. -/
structure GameSession where
  current_year : ℤ
  start_year : ℤ
  end_year : ℤ
  state : GameState
deriving DecidableEq, Repr

/-- Embedding of `advance_year` (market_game_api.py lines 421-438): no
precondition on the session state; at or past the end year the session is
marked complete, otherwise the year increments and planning restarts. -/
def advance_year (s : GameSession) : GameSession :=
  if s.current_year ≥ s.end_year then
    { s with state := GameState.game_complete }
  else
    { s with current_year := s.current_year + 1, state := GameState.year_planning }

/-- Status assignment of `create_power_plant` (market_game_api.py lines
520-525).  The session current year is available to the endpoint but the
code hardcodes `current_year = 2025` (its own comment reads
`TODO: Get from game session`), so the first argument is ignored. -/
def createPlantStatusApi (_session_current_year : ℤ) (commissioning_year : ℤ) : PlantStatus :=
  let current_year : ℤ := 2025
  if commissioning_year ≤ current_year then PlantStatus.operating
  else PlantStatus.under_construction

/-- Modelled from the spec: plant status as a pure function of the current
simulation year against the plant year bounds (commissioned and not retired
implies operating; not yet commissioned implies under construction; past
retirement implies retired).  This rule is stated in the spec; no such
derivation exists in the two source files. -/
def statusFromYearSpec (commissioning_year retirement_year current_year : ℤ) : PlantStatus :=
  if retirement_year < current_year then PlantStatus.retired
  else if commissioning_year ≤ current_year then PlantStatus.operating
  else PlantStatus.under_construction

/-- Per-fuel price table for one year (a JSON object of fuel name to price
per MMBtu). -/
abbrev FuelPrices := List (String × ℚ)

/-- Fuel price schedule of a session (`fuel_prices` JSON column): year keyed
price tables. -/
abbrev FuelSchedule := List (ℤ × FuelPrices)

/-- Dictionary lookup `fuel_prices_data.get(str(year))`. -/
def lookupYear (sched : FuelSchedule) (y : ℤ) : Option FuelPrices :=
  (sched.find? (fun p => p.1 == y)).map Prod.snd

/-- The expression `max(int(y) for y in fuel_prices_data.keys())` from
`get_fuel_prices` (0 for an empty schedule, which the code never queries). -/
def latestYear (sched : FuelSchedule) : ℤ :=
  match sched with
  | [] => 0
  | p :: rest => (rest.map Prod.fst).foldl max p.1

/-- Extrapolation branch of `get_fuel_prices` (market_game_api.py lines
713-724): prices of the latest known year scaled by 1.02 to the power of
the year gap. -/
def extrapolatePrices (sched : FuelSchedule) (year : ℤ) : FuelPrices :=
  let latest_year := latestYear sched
  let latest_prices := (lookupYear sched latest_year).getD []
  latest_prices.map (fun fp => (fp.1, fp.2 * (102/100 : ℚ) ^ (year - latest_year)))

/-- Embedding of `get_fuel_prices` (market_game_api.py lines 702-730).  The
Python test `if not year_prices` also treats an empty table as missing, so
an empty entry is extrapolated as well. -/
def get_fuel_prices (sched : FuelSchedule) (year : ℤ) : FuelPrices :=
  match lookupYear sched year with
  | some prices => if prices.isEmpty then extrapolatePrices sched year else prices
  | none => extrapolatePrices sched year

/-- Fuel price lookup used by `get_plant_economics` (market_game_api.py
lines 586-588): a dictionary get of the requested year that falls back to
the 2025 entry, and then to an empty table, with no extrapolation. -/
def econFuelPrices (sched : FuelSchedule) (year : ℤ) : FuelPrices :=
  (lookupYear sched year).getD ((lookupYear sched 2025).getD [])

/-- Demand profile parameters stored in the `demand_profile` JSON column.
The base year records the year the profile was built for
(`AnnualDemandProfile(year=session.start_year)` at session creation). -/
structure DemandProfile where
  base_year : ℤ
  off_peak_demand : ℚ
  shoulder_demand : ℚ
  peak_demand : ℚ
  demand_growth_rate : ℚ
deriving DecidableEq, Repr

/-- Per-period demand figures. -/
structure Demands where
  off_peak : ℚ
  shoulder : ℚ
  peak : ℚ
deriving DecidableEq, Repr

/-- Demand computation of `get_game_dashboard` (market_game_api.py lines
774-783): growth compounds over `current_year - start_year`. -/
def dashboardDemands (s : GameSession) (p : DemandProfile) : Demands :=
  let current_year_offset : ℤ := s.current_year - s.start_year
  let growth_factor : ℚ := (1 + p.demand_growth_rate) ^ current_year_offset
  { off_peak := p.off_peak_demand * growth_factor
    shoulder := p.shoulder_demand * growth_factor
    peak := p.peak_demand * growth_factor }

/-- Fields of a `DBPowerPlant` row relevant to bid submission. -/
structure Plant where
  id : String
  utility_id : String
  status : PlantStatus
  commissioning_year : ℤ
  retirement_year : ℤ
deriving DecidableEq, Repr

/-- Fields of a `DBYearlyBid` row. -/
structure YearlyBid where
  plant_id : String
  utility_id : String
  year : ℤ
  off_peak_quantity : ℚ
  shoulder_quantity : ℚ
  peak_quantity : ℚ
  off_peak_price : ℚ
  shoulder_price : ℚ
  peak_price : ℚ
deriving DecidableEq, Repr

/-- Request body of the bid endpoint (`YearlyBidCreate`). -/
structure BidCreate where
  plant_id : String
  year : ℤ
  off_peak_quantity : ℚ
  shoulder_quantity : ℚ
  peak_quantity : ℚ
  off_peak_price : ℚ
  shoulder_price : ℚ
  peak_price : ℚ
deriving DecidableEq, Repr

/-- Database contents of one game session, as seen by the bid endpoint: the
session row (of which only the state matters here), its plant rows and its
bid rows. -/
structure World where
  sessionState : GameState
  plants : List Plant
  bids : List YearlyBid
deriving DecidableEq, Repr

/-- Errors raised by the API layer (`HTTPException`). -/
inductive ApiError where
  | http (status : ℕ) (detail : String)
deriving DecidableEq, Repr

/-- The row filter of the existing-bid query in `submit_yearly_bid`: same
plant and same year (within the session). -/
def bidKeyMatch (c : BidCreate) (b : YearlyBid) : Bool :=
  b.plant_id == c.plant_id && b.year == c.year

/-- In-place field update of an existing bid row (market_game_api.py lines
657-664): the six quantity/price fields are overwritten. -/
def setBidFields (b : YearlyBid) (c : BidCreate) : YearlyBid :=
  { b with
    off_peak_quantity := c.off_peak_quantity
    shoulder_quantity := c.shoulder_quantity
    peak_quantity := c.peak_quantity
    off_peak_price := c.off_peak_price
    shoulder_price := c.shoulder_price
    peak_price := c.peak_price }

/-- Freshly inserted bid row (market_game_api.py lines 669-682). -/
def newBidRow (utility_id : String) (c : BidCreate) : YearlyBid :=
  { plant_id := c.plant_id
    utility_id := utility_id
    year := c.year
    off_peak_quantity := c.off_peak_quantity
    shoulder_quantity := c.shoulder_quantity
    peak_quantity := c.peak_quantity
    off_peak_price := c.off_peak_price
    shoulder_price := c.shoulder_price
    peak_price := c.peak_price }

/-- Update of the first bid row matching the (plant, year) key, modelling
the `.first()` query followed by the field mutation. -/
def updateFirstBid (c : BidCreate) : List YearlyBid → List YearlyBid
  | [] => []
  | b :: rest =>
    if bidKeyMatch c b then setBidFields b c :: rest
    else b :: updateFirstBid c rest

/-- Embedding of `submit_yearly_bid` (market_game_api.py lines 632-686).
The code validates only that the plant exists, is owned by the submitting
utility and belongs to the session; it never reads the session state and
never inspects the bid values or the plant status.  On success it returns
the updated bid table. -/
def submit_yearly_bid (w : World) (utility_id : String) (c : BidCreate) :
    Except ApiError (List YearlyBid) :=
  match w.plants.find? (fun p => p.id == c.plant_id && p.utility_id == utility_id) with
  | none => Except.error (ApiError.http 404 "Plant not found or not owned by utility")
  | some _ =>
    match w.bids.find? (fun b => bidKeyMatch c b) with
    | some _ => Except.ok (updateFirstBid c w.bids)
    | none => Except.ok (w.bids ++ [newBidRow utility_id c])

/-- Modelled from the spec: one supply offer of the merit-order auction
(quantity/price of a plant for one load period).  The clearing engine is in
the `game_orchestrator` module, which is not among the source files. -/
structure SupplyOffer where
  plant_id : String
  quantity : ℚ
  price : ℚ
deriving DecidableEq, Repr

/-- Modelled from the spec: merit-order comparison, ascending price with
ties broken by ascending plant identifier. -/
def offerLE (a b : SupplyOffer) : Prop :=
  a.price < b.price ∨ (a.price = b.price ∧ a.plant_id ≤ b.plant_id)

instance : DecidableRel offerLE := fun a b =>
  inferInstanceAs (Decidable (a.price < b.price ∨ (a.price = b.price ∧ a.plant_id ≤ b.plant_id)))

instance : IsTotal SupplyOffer offerLE where
  total a b := by
    rcases lt_trichotomy a.price b.price with h | h | h
    · exact Or.inl (Or.inl h)
    · rcases le_total a.plant_id b.plant_id with hs | hs
      · exact Or.inl (Or.inr ⟨h, hs⟩)
      · exact Or.inr (Or.inr ⟨h.symm, hs⟩)
    · exact Or.inr (Or.inl h)

instance : IsTrans SupplyOffer offerLE where
  trans a b c hab hbc := by
    rcases hab with h1 | ⟨e1, s1⟩ <;> rcases hbc with h2 | ⟨e2, s2⟩
    · exact Or.inl (h1.trans h2)
    · exact Or.inl (e2 ▸ h1)
    · exact Or.inl (e1 ▸ h2)
    · exact Or.inr ⟨e1.trans e2, s1.trans s2⟩

/-- Sum of the offered quantities of a list of offers. -/
def offeredTotal (offers : List SupplyOffer) : ℚ :=
  (offers.map (fun o => o.quantity)).sum

/-- Modelled from the spec: walk the merit-ordered offers accumulating
quantity until the cumulative accepted quantity meets demand; the marginal
offer is accepted only for the portion needed.  Returns the cleared
quantity together with the accepted offers in acceptance order. -/
def acceptOffers (demand : ℚ) : List SupplyOffer → ℚ × List SupplyOffer
  | [] => (0, [])
  | o :: rest =>
    if demand ≤ 0 then (0, [])
    else if demand ≤ o.quantity then (demand, [o])
    else
      let r := acceptOffers (demand - o.quantity) rest
      (o.quantity + r.1, o :: r.2)

/-- Modelled from the spec: result of clearing one load period. -/
structure ClearingResult where
  clearing_price : ℚ
  cleared_quantity : ℚ
  accepted_ids : List String
  marginal_plant : Option String
  shortfall : Bool
deriving DecidableEq, Repr

/-- Modelled from the spec: uniform-price merit-order clearing of one load
period.  Offers are sorted by ascending price (ties by plant identifier),
accepted until demand is met, the last accepted offer sets the uniform
clearing price, and a total offered quantity below demand flags a supply
shortfall instead of raising an error (with no offers the price is reported
as the null placeholder 0 and the cleared quantity is 0). -/
def clearPeriod (demand : ℚ) (offers : List SupplyOffer) : ClearingResult :=
  let sorted := List.insertionSort offerLE offers
  let accepted := acceptOffers demand sorted
  let marginal := accepted.2.getLast?
  { clearing_price := (marginal.map (fun o => o.price)).getD 0
    cleared_quantity := accepted.1
    accepted_ids := accepted.2.map (fun o => o.plant_id)
    marginal_plant := marginal.map (fun o => o.plant_id)
    shortfall := decide (offeredTotal offers < demand) }

/-! Theorems -/

/-- C2 counterexample: creating a plant for a utility with budget 1000 and
capital cost 100 leaves a budget of 900, which is a debit of the full
amount, not of 30% of it (that would leave 970). -/
theorem commitCapitalApi_budget_full_debit :
    (commitCapitalApi ⟨1000, 0, 1000⟩ 100).budget = 900 ∧
    ((900 : ℚ) ≠ 1000 - 100 * (3/10)) := by
  constructor
  · norm_num [commitCapitalApi]
  · norm_num

/-- C2 (amended): creating a plant debits the utility budget by the full
capital amount, debits equity by 30% of it and increases debt by 70% of
it, in one guarded update (all three postings or, when the utility row is
missing, none); the sample-data path in startup.py instead debits budget
and equity by 30% each and sets debt to 70%. -/
theorem commitCapital_postings (u : Utility) (amount : ℚ) :
    (commitCapitalApi u amount).budget = u.budget - amount ∧
    (commitCapitalApi u amount).equity = u.equity - amount * (3/10) ∧
    (commitCapitalApi u amount).debt = u.debt + amount * (7/10) ∧
    (commitCapitalStartup u amount).budget = u.budget - amount * (3/10) ∧
    (commitCapitalStartup u amount).equity = u.equity - amount * (3/10) ∧
    (commitCapitalStartup u amount).debt = amount * (7/10) ∧
    plantFinancing none amount = none ∧
    plantFinancing (some u) amount = some (commitCapitalApi u amount) :=
  ⟨rfl, rfl, rfl, rfl, rfl, rfl, rfl, rfl⟩

/-- C3: advancing the year below the end year increments the current year
by exactly one and moves the session to year planning; advancing at the
end year marks the game complete, not year planning. -/
theorem advance_year_transitions (s : GameSession) :
    (s.current_year < s.end_year →
      (advance_year s).current_year = s.current_year + 1 ∧
      (advance_year s).state = GameState.year_planning) ∧
    (s.current_year = s.end_year →
      (advance_year s).state = GameState.game_complete ∧
      (advance_year s).state ≠ GameState.year_planning) := by
  constructor
  · intro h
    have hn : ¬ s.current_year ≥ s.end_year := not_le.mpr h
    simp [advance_year, hn]
  · intro h
    have hg : s.current_year ≥ s.end_year := ge_of_eq h
    simp [advance_year, hg]

/-- C3 witness: a session in 2030 of a 2025-2035 game advances to 2031 in
planning, and a session at 2035 is marked complete. -/
theorem advance_year_transitions_witness :
    ((advance_year ⟨2030, 2025, 2035, GameState.year_complete⟩).current_year = 2031 ∧
      (advance_year ⟨2030, 2025, 2035, GameState.year_complete⟩).state =
        GameState.year_planning) ∧
    ((advance_year ⟨2035, 2025, 2035, GameState.year_complete⟩).state =
        GameState.game_complete ∧
      (advance_year ⟨2035, 2025, 2035, GameState.year_complete⟩).state ≠
        GameState.year_planning) :=
  ⟨(advance_year_transitions ⟨2030, 2025, 2035, GameState.year_complete⟩).1 (by decide),
   (advance_year_transitions ⟨2035, 2025, 2035, GameState.year_complete⟩).2 (by decide)⟩

/-- C10: the year advance enforces no precondition on the session state:
its outcome is the same for every lifecycle state, it always mutates the
session into either year planning or game complete, and it never pushes
the current year past the end year. -/
theorem advance_year_no_state_precondition (s : GameSession) :
    (∀ st : GameState,
      (advance_year { s with state := st }).current_year = (advance_year s).current_year ∧
      (advance_year { s with state := st }).state = (advance_year s).state) ∧
    ((advance_year s).state = GameState.year_planning ∨
      (advance_year s).state = GameState.game_complete) ∧
    (s.end_year ≤ s.current_year →
      advance_year s = { s with state := GameState.game_complete }) ∧
    (s.current_year < s.end_year →
      advance_year s = { s with current_year := s.current_year + 1,
                                state := GameState.year_planning }) ∧
    (s.current_year ≤ s.end_year → (advance_year s).current_year ≤ s.end_year) := by
  by_cases h : s.current_year ≥ s.end_year
  · refine ⟨fun st => ?_, ?_, ?_, ?_, ?_⟩
    · simp [advance_year, h]
    · simp [advance_year, h]
    · intro _; simp [advance_year, h]
    · intro hlt; exact absurd h (not_le.mpr hlt)
    · intro hle; simpa [advance_year, h] using hle
  · refine ⟨fun st => ?_, ?_, ?_, ?_, ?_⟩
    · simp [advance_year, h]
    · simp [advance_year, h]
    · intro hle; exact absurd hle (by omega)
    · intro _; simp [advance_year, h]
    · intro _; simp only [advance_year, if_neg h]; omega

/-- C10 witness: a session at the end year in market clearing state is
moved to game complete without error, and the year does not pass the end
year. -/
theorem advance_year_no_state_precondition_witness :
    advance_year ⟨2035, 2025, 2035, GameState.market_clearing⟩ =
      ⟨2035, 2025, 2035, GameState.game_complete⟩ ∧
    (advance_year ⟨2035, 2025, 2035, GameState.market_clearing⟩).current_year ≤ 2035 :=
  ⟨(advance_year_no_state_precondition
      ⟨2035, 2025, 2035, GameState.market_clearing⟩).2.2.1 (by decide),
   (advance_year_no_state_precondition
      ⟨2035, 2025, 2035, GameState.market_clearing⟩).2.2.2.2 (by decide)⟩

/-- C5: plant status at creation is computed against the hardcoded year
2025, not the owning session current year.  For a session currently in
2030, a plant commissioned in 2028 is stored as under construction even
though the deterministic rule of the spec makes it operating; the creation
path can also never produce the retired status. -/
theorem createPlantStatus_uses_hardcoded_year :
    createPlantStatusApi 2030 2028 = PlantStatus.under_construction ∧
    statusFromYearSpec 2028 2060 2030 = PlantStatus.operating ∧
    createPlantStatusApi 2030 2028 ≠ statusFromYearSpec 2028 2060 2030 ∧
    statusFromYearSpec 2020 2024 2030 = PlantStatus.retired ∧
    ∀ (y cy : ℤ), createPlantStatusApi y cy ≠ PlantStatus.retired := by
  refine ⟨by decide, by decide, by decide, by decide, fun y cy => ?_⟩
  by_cases hc : cy ≤ (2025 : ℤ) <;> simp [createPlantStatusApi, hc]

/-- C7: the dashboard demand for the current year equals each base period
demand scaled by the growth rate compounded over the gap to the profile
base year (which session creation sets to the session start year); at the
base year the demand is exactly the base demand, and one year later it is
the base demand times one plus the growth rate. -/
theorem dashboard_demand_growth (s : GameSession) (p : DemandProfile)
    (hb : p.base_year = s.start_year) :
    dashboardDemands s p =
      { off_peak := p.off_peak_demand *
          (1 + p.demand_growth_rate) ^ (s.current_year - p.base_year)
        shoulder := p.shoulder_demand *
          (1 + p.demand_growth_rate) ^ (s.current_year - p.base_year)
        peak := p.peak_demand *
          (1 + p.demand_growth_rate) ^ (s.current_year - p.base_year) } ∧
    (s.current_year = p.base_year →
      dashboardDemands s p =
        { off_peak := p.off_peak_demand, shoulder := p.shoulder_demand,
          peak := p.peak_demand }) ∧
    (s.current_year = p.base_year + 1 →
      dashboardDemands s p =
        { off_peak := p.off_peak_demand * (1 + p.demand_growth_rate)
          shoulder := p.shoulder_demand * (1 + p.demand_growth_rate)
          peak := p.peak_demand * (1 + p.demand_growth_rate) }) := by
  refine ⟨?_, ?_, ?_⟩
  · simp [dashboardDemands, hb]
  · intro h
    simp [dashboardDemands, hb, h]
  · intro h
    simp [dashboardDemands, hb, h, add_sub_cancel_left]

/-- C7 witness: a 2025-based profile evaluated by a session currently in
2027 yields base demand times the squared growth factor, and evaluated at
the base year yields exactly the base demand. -/
theorem dashboard_demand_growth_witness :
    dashboardDemands ⟨2027, 2025, 2035, GameState.year_planning⟩
        ⟨2025, 1000, 1500, 2000, 1/50⟩ =
      { off_peak := 1000 * (1 + 1/50 : ℚ) ^ ((2027 : ℤ) - 2025)
        shoulder := 1500 * (1 + 1/50 : ℚ) ^ ((2027 : ℤ) - 2025)
        peak := 2000 * (1 + 1/50 : ℚ) ^ ((2027 : ℤ) - 2025) } ∧
    dashboardDemands ⟨2025, 2025, 2035, GameState.year_planning⟩
        ⟨2025, 1000, 1500, 2000, 1/50⟩ =
      { off_peak := 1000, shoulder := 1500, peak := 2000 } :=
  ⟨(dashboard_demand_growth ⟨2027, 2025, 2035, GameState.year_planning⟩
      ⟨2025, 1000, 1500, 2000, 1/50⟩ rfl).1,
   (dashboard_demand_growth ⟨2025, 2025, 2035, GameState.year_planning⟩
      ⟨2025, 1000, 1500, 2000, 1/50⟩ rfl).2.1 rfl⟩

/-- Concrete one-year fuel schedule used for the C6 checks: only 2025 is
known, natural gas at 3 dollars per MMBtu. -/
def c6sched : FuelSchedule := [(2025, [("natural_gas", 3)])]

/-- C6 counterexample: for the schedule knowing only 2025 at 3.00, the
fuel-price endpoint extrapolates 2027 to 3 times 1.02 squared, which is
3.1212 and not the 3.0612 of the claim; and the plant-economics fuel
lookup does not extrapolate at all, it falls back to the 2025 entry. -/
theorem econ_prices_skip_extrapolation :
    get_fuel_prices c6sched 2027 = [("natural_gas", 31212/10000)] ∧
    econFuelPrices c6sched 2027 = [("natural_gas", 3)] ∧
    ((31212/10000 : ℚ) ≠ 30612/10000) ∧
    ((3 : ℚ) ≠ 31212/10000) := by
  have h2 : lookupYear c6sched 2027 = none := rfl
  have h3 : get_fuel_prices c6sched 2027 =
      [("natural_gas", (3 : ℚ) * (102/100) ^ ((2027 : ℤ) - 2025))] := by
    unfold get_fuel_prices
    rw [h2]
    rfl
  refine ⟨?_, rfl, by norm_num, by norm_num⟩
  rw [h3]
  norm_num

/-- C6 (amended): for any year absent from the schedule the fuel-price
endpoint returns the latest known year prices scaled by 1.02 compounded
over the year gap (a pure function of schedule and year), while the
plant-economics calculation instead falls back to the 2025 entry of the
schedule (or an empty table). -/
theorem fuel_price_lookup (sched : FuelSchedule) (year : ℤ)
    (h : lookupYear sched year = none) :
    get_fuel_prices sched year =
      ((lookupYear sched (latestYear sched)).getD []).map
        (fun fp => (fp.1, fp.2 * (102/100 : ℚ) ^ (year - latestYear sched))) ∧
    econFuelPrices sched year = (lookupYear sched 2025).getD [] := by
  constructor
  · unfold get_fuel_prices
    rw [h]
    rfl
  · unfold econFuelPrices
    rw [h]
    rfl

/-- C6 witness: the amended statement evaluated on the one-year schedule at
the absent year 2027. -/
theorem fuel_price_lookup_witness :
    lookupYear c6sched 2027 = none ∧
    (get_fuel_prices c6sched 2027 =
      ((lookupYear c6sched (latestYear c6sched)).getD []).map
        (fun fp => (fp.1, fp.2 * (102/100 : ℚ) ^ ((2027 : ℤ) - latestYear c6sched))) ∧
     econFuelPrices c6sched 2027 = (lookupYear c6sched 2025).getD []) :=
  ⟨rfl, fuel_price_lookup c6sched 2027 rfl⟩

/-- C4 counterexample: with the session in market clearing state, a bid
for an owned plant is accepted and a bid row is created, instead of
failing with a state-transition error. -/
theorem submit_bid_in_market_clearing_succeeds :
    submit_yearly_bid
        ⟨GameState.market_clearing,
          [⟨"plant_a", "utility_1", PlantStatus.operating, 2024, 2050⟩], []⟩
        "utility_1" ⟨"plant_a", 2026, 100, 120, 150, 20, 25, 40⟩ =
      Except.ok [⟨"plant_a", "utility_1", 2026, 100, 120, 150, 20, 25, 40⟩] ∧
    GameState.market_clearing ≠ GameState.bidding_open := by
  exact ⟨rfl, by decide⟩

/-- C4 (amended): bid submission never consults the session lifecycle
state: its result is identical for any two states, and it either succeeds
or fails with the 404 ownership error, never with a state-transition
error. -/
theorem submit_bid_ignores_session_state (st st' : GameState) (ps : List Plant)
    (bs : List YearlyBid) (uid : String) (c : BidCreate) :
    submit_yearly_bid ⟨st, ps, bs⟩ uid c = submit_yearly_bid ⟨st', ps, bs⟩ uid c ∧
    ((submit_yearly_bid ⟨st, ps, bs⟩ uid c).isOk = true ∨
      submit_yearly_bid ⟨st, ps, bs⟩ uid c =
        Except.error (ApiError.http 404 "Plant not found or not owned by utility")) := by
  refine ⟨rfl, ?_⟩
  cases hp : ps.find? (fun p => p.id == c.plant_id && p.utility_id == uid) with
  | none => exact Or.inr (by simp [submit_yearly_bid, hp])
  | some q =>
    cases hb : bs.find? (fun b => bidKeyMatch c b) with
    | some b =>
      exact Or.inl (by simp [submit_yearly_bid, hp, hb, Except.isOk, Except.toBool])
    | none =>
      exact Or.inl (by simp [submit_yearly_bid, hp, hb, Except.isOk, Except.toBool])

/-- A bid row keeps matching the (plant, year) key after its quantity and
price fields are overwritten. -/
theorem bidKeyMatch_setBidFields (c : BidCreate) (b : YearlyBid) :
    bidKeyMatch c (setBidFields b c) = bidKeyMatch c b := rfl

/-- The freshly inserted bid row matches the (plant, year) key of the
request it was built from. -/
theorem bidKeyMatch_newBidRow (c : BidCreate) (uid : String) :
    bidKeyMatch c (newBidRow uid c) = true := by
  simp [bidKeyMatch, newBidRow]

/-- Updating the first matching bid row keeps that row in the table with
the new field values. -/
theorem setBidFields_mem_updateFirstBid (c : BidCreate) :
    ∀ (bs : List YearlyBid) (b0 : YearlyBid),
      bs.find? (fun b => bidKeyMatch c b) = some b0 →
      setBidFields b0 c ∈ updateFirstBid c bs := by
  intro bs
  induction bs with
  | nil => intro b0 h; simp [List.find?] at h
  | cons x rest ih =>
    intro b0 h
    by_cases hx : bidKeyMatch c x = true
    · rw [List.find?_cons_of_pos rest hx] at h
      cases h
      simp [updateFirstBid, hx]
    · rw [List.find?_cons_of_neg rest (by simpa using hx)] at h
      simp only [updateFirstBid, if_neg hx]
      exact List.mem_cons_of_mem x (ih b0 h)

/-- C8 (amended): bid submission validates only existence and ownership of
the plant.  Whenever the ownership lookup succeeds the bid is accepted and
stored with exactly the submitted per-period quantities and prices — even
negative ones, and even for a plant that is not operating — and when the
lookup fails the caller gets the 404 ownership error. -/
theorem submit_bid_checks_only_ownership (w : World) (uid : String) (c : BidCreate) :
    ((w.plants.find? (fun p => p.id == c.plant_id && p.utility_id == uid)).isSome = true →
      ∃ bs, submit_yearly_bid w uid c = Except.ok bs ∧
        ∃ b ∈ bs, bidKeyMatch c b = true ∧
          b.off_peak_quantity = c.off_peak_quantity ∧
          b.shoulder_quantity = c.shoulder_quantity ∧
          b.peak_quantity = c.peak_quantity ∧
          b.off_peak_price = c.off_peak_price ∧
          b.shoulder_price = c.shoulder_price ∧
          b.peak_price = c.peak_price) ∧
    (w.plants.find? (fun p => p.id == c.plant_id && p.utility_id == uid) = none →
      submit_yearly_bid w uid c =
        Except.error (ApiError.http 404 "Plant not found or not owned by utility")) := by
  constructor
  · intro hp
    rw [Option.isSome_iff_exists] at hp
    obtain ⟨q, hq⟩ := hp
    cases hb : w.bids.find? (fun b => bidKeyMatch c b) with
    | some b0 =>
      refine ⟨updateFirstBid c w.bids, by simp [submit_yearly_bid, hq, hb], ?_⟩
      exact ⟨setBidFields b0 c, setBidFields_mem_updateFirstBid c w.bids b0 hb,
        by rw [bidKeyMatch_setBidFields]; exact List.find?_some hb,
        rfl, rfl, rfl, rfl, rfl, rfl⟩
    | none =>
      refine ⟨w.bids ++ [newBidRow uid c], by simp [submit_yearly_bid, hq, hb], ?_⟩
      exact ⟨newBidRow uid c, by simp, bidKeyMatch_newBidRow c uid,
        rfl, rfl, rfl, rfl, rfl, rfl⟩
  · intro hp
    simp [submit_yearly_bid, hp]

/-- Plant used for the C8 scenario: owned by utility 8 and still under
construction in the bid year. -/
def c8plant : Plant := ⟨"plant_w8", "utility_8", PlantStatus.under_construction, 2030, 2055⟩

/-- Bid used for the C8 scenario: negative quantities and prices. -/
def c8bid : BidCreate := ⟨"plant_w8", 2026, -5, -5, -5, -10, -10, -10⟩

/-- Session contents used for the C8 scenario. -/
def c8world : World := ⟨GameState.bidding_open, [c8plant], []⟩

/-- C8 witness: the ownership lookup succeeds for the under-construction
plant, so the negative-valued bid is accepted and stored. -/
theorem submit_bid_checks_only_ownership_witness :
    (c8world.plants.find?
        (fun p => p.id == c8bid.plant_id && p.utility_id == "utility_8")).isSome = true ∧
    (∃ bs, submit_yearly_bid c8world "utility_8" c8bid = Except.ok bs ∧
      ∃ b ∈ bs, bidKeyMatch c8bid b = true ∧
        b.off_peak_quantity = c8bid.off_peak_quantity ∧
        b.shoulder_quantity = c8bid.shoulder_quantity ∧
        b.peak_quantity = c8bid.peak_quantity ∧
        b.off_peak_price = c8bid.off_peak_price ∧
        b.shoulder_price = c8bid.shoulder_price ∧
        b.peak_price = c8bid.peak_price) :=
  ⟨by decide, (submit_bid_checks_only_ownership c8world "utility_8" c8bid).1 (by decide)⟩

/-- C8 counterexample: a bid with negative quantities and prices, for an
owned plant that is under construction (not operating) in the bid year, is
accepted and stored instead of failing with a validation error. -/
theorem negative_bid_for_non_operating_plant_accepted :
    c8plant.status = PlantStatus.under_construction ∧
    c8bid.off_peak_price < 0 ∧
    c8bid.off_peak_quantity < 0 ∧
    submit_yearly_bid c8world "utility_8" c8bid =
      Except.ok [⟨"plant_w8", "utility_8", 2026, -5, -5, -5, -10, -10, -10⟩] := by
  exact ⟨rfl, by decide, by decide, rfl⟩

/-- Structure of a bid table around its first (plant, year) match, and the
effect of the in-place update on it. -/
theorem updateFirstBid_split (c : BidCreate) :
    ∀ (bs : List YearlyBid) (b0 : YearlyBid),
      bs.find? (bidKeyMatch c) = some b0 →
      ∃ l1 l2, bs = l1 ++ b0 :: l2 ∧
        (∀ b ∈ l1, bidKeyMatch c b = false) ∧
        updateFirstBid c bs = l1 ++ setBidFields b0 c :: l2 := by
  intro bs
  induction bs with
  | nil => intro b0 h; simp [List.find?] at h
  | cons x rest ih =>
    intro b0 h
    by_cases hx : bidKeyMatch c x = true
    · rw [List.find?_cons_of_pos rest hx] at h
      cases h
      exact ⟨[], rest, rfl, by simp, by simp [updateFirstBid, hx]⟩
    · rw [List.find?_cons_of_neg rest (by simpa using hx)] at h
      obtain ⟨l1, l2, hsplit, hnone, hupd⟩ := ih b0 h
      refine ⟨x :: l1, l2, by rw [hsplit]; rfl, ?_, ?_⟩
      · intro b hb
        rcases List.mem_cons.mp hb with hb | hb
        · rw [hb]; exact Bool.eq_false_iff.mpr hx
        · exact hnone b hb
      · simp only [updateFirstBid, if_neg hx, hupd]
        rfl

/-- C9: re-submitting a bid for the same (plant, year) replaces the prior
bid.  If the plant lookup succeeds and the table holds at most one bid for
that key, then after submission the table holds exactly one bid for the
key and its six per-period values are the newly submitted ones. -/
theorem resubmit_bid_last_write_wins (w : World) (uid : String) (c : BidCreate)
    (hp : (w.plants.find? (fun p => p.id == c.plant_id && p.utility_id == uid)).isSome = true)
    (hu : (w.bids.filter (bidKeyMatch c)).length ≤ 1) :
    ∃ bs, submit_yearly_bid w uid c = Except.ok bs ∧
      (bs.filter (bidKeyMatch c)).length = 1 ∧
      ∀ b ∈ bs, bidKeyMatch c b = true →
        b.off_peak_quantity = c.off_peak_quantity ∧
        b.shoulder_quantity = c.shoulder_quantity ∧
        b.peak_quantity = c.peak_quantity ∧
        b.off_peak_price = c.off_peak_price ∧
        b.shoulder_price = c.shoulder_price ∧
        b.peak_price = c.peak_price := by
  rw [Option.isSome_iff_exists] at hp
  obtain ⟨q, hq⟩ := hp
  cases hb : w.bids.find? (bidKeyMatch c) with
  | none =>
    have hfil : w.bids.filter (bidKeyMatch c) = [] := by
      rw [List.filter_eq_nil_iff]
      intro b hbmem hbkey
      exact absurd (List.find?_eq_none.mp hb b hbmem) (by simp [hbkey])
    refine ⟨w.bids ++ [newBidRow uid c], by simp [submit_yearly_bid, hq, hb], ?_, ?_⟩
    · rw [List.filter_append, hfil]
      simp [bidKeyMatch_newBidRow]
    · intro b hbmem hbkey
      rcases List.mem_append.mp hbmem with hmem | hmem
      · exact absurd (List.find?_eq_none.mp hb b hmem) (by simp [hbkey])
      · have : b = newBidRow uid c := by simpa using hmem
        rw [this]
        exact ⟨rfl, rfl, rfl, rfl, rfl, rfl⟩
  | some b0 =>
    obtain ⟨l1, l2, hsplit, hnone, hupd⟩ := updateFirstBid_split c w.bids b0 hb
    have hb0 : bidKeyMatch c b0 = true := List.find?_some hb
    have hfil1 : l1.filter (bidKeyMatch c) = [] := by
      rw [List.filter_eq_nil_iff]
      intro b hbmem hbkey
      rw [hnone b hbmem] at hbkey
      exact absurd hbkey (by simp)
    have hfil2 : l2.filter (bidKeyMatch c) = [] := by
      have := hu
      rw [hsplit, List.filter_append, hfil1, List.filter_cons_of_pos hb0] at this
      simp only [List.nil_append, List.length_cons] at this
      exact List.length_eq_zero.mp (by omega)
    refine ⟨updateFirstBid c w.bids, by simp [submit_yearly_bid, hq, hb], ?_, ?_⟩
    · rw [hupd, List.filter_append, hfil1,
        List.filter_cons_of_pos (by rw [bidKeyMatch_setBidFields]; exact hb0), hfil2]
      rfl
    · intro b hbmem hbkey
      rw [hupd] at hbmem
      rcases List.mem_append.mp hbmem with hmem | hmem
      · rw [hnone b hmem] at hbkey
        exact absurd hbkey (by simp)
      · rcases List.mem_cons.mp hmem with hbeq | hmem
        · rw [hbeq]
          exact ⟨rfl, rfl, rfl, rfl, rfl, rfl⟩
        · have : b ∈ l2.filter (bidKeyMatch c) :=
            List.mem_filter.mpr ⟨hmem, hbkey⟩
          rw [hfil2] at this
          exact absurd this (by simp)

/-- Plant used for the C9 scenario. -/
def c9plant : Plant := ⟨"plant_w9", "utility_9", PlantStatus.operating, 2024, 2050⟩

/-- Prior bid of the C9 scenario. -/
def c9old : YearlyBid := ⟨"plant_w9", "utility_9", 2026, 10, 10, 10, 5, 5, 5⟩

/-- Replacement bid of the C9 scenario for the same plant and year. -/
def c9new : BidCreate := ⟨"plant_w9", 2026, 20, 21, 22, 7, 8, 9⟩

/-- Session contents of the C9 scenario. -/
def c9world : World := ⟨GameState.bidding_open, [c9plant], [c9old]⟩

/-- C9 witness: re-submitting for the (plant, year) pair that already has
a bid leaves exactly one bid for the pair, carrying the new values. -/
theorem resubmit_bid_last_write_wins_witness :
    (c9world.plants.find?
        (fun p => p.id == c9new.plant_id && p.utility_id == "utility_9")).isSome = true ∧
    (c9world.bids.filter (bidKeyMatch c9new)).length ≤ 1 ∧
    (∃ bs, submit_yearly_bid c9world "utility_9" c9new = Except.ok bs ∧
      (bs.filter (bidKeyMatch c9new)).length = 1 ∧
      ∀ b ∈ bs, bidKeyMatch c9new b = true →
        b.off_peak_quantity = c9new.off_peak_quantity ∧
        b.shoulder_quantity = c9new.shoulder_quantity ∧
        b.peak_quantity = c9new.peak_quantity ∧
        b.off_peak_price = c9new.off_peak_price ∧
        b.shoulder_price = c9new.shoulder_price ∧
        b.peak_price = c9new.peak_price) :=
  ⟨by decide, by decide,
   resubmit_bid_last_write_wins c9world "utility_9" c9new (by decide) (by decide)⟩

/-- Merit-order comparison bounds the price. -/
theorem offerLE_price {a b : SupplyOffer} (h : offerLE a b) : a.price ≤ b.price := by
  rcases h with h | ⟨h, _⟩
  · exact le_of_lt h
  · exact le_of_eq h

/-- Offered total of the empty offer list. -/
theorem offeredTotal_nil : offeredTotal [] = 0 := rfl

/-- Offered total of a cons. -/
theorem offeredTotal_cons (o : SupplyOffer) (l : List SupplyOffer) :
    offeredTotal (o :: l) = o.quantity + offeredTotal l := by
  simp [offeredTotal]

/-- Nonnegative offers have a nonnegative total. -/
theorem offeredTotal_nonneg (l : List SupplyOffer) (hq : ∀ o ∈ l, 0 ≤ o.quantity) :
    0 ≤ offeredTotal l := by
  refine List.sum_nonneg ?_
  intro x hx
  rcases List.mem_map.mp hx with ⟨o, ho, rfl⟩
  exact hq o ho

/-- The offered total is invariant under permutation (so sorting does not
change it). -/
theorem offeredTotal_perm {l1 l2 : List SupplyOffer} (h : l1.Perm l2) :
    offeredTotal l1 = offeredTotal l2 :=
  List.Perm.sum_eq (h.map (fun o => o.quantity))

/-- The quantity cleared by the acceptance walk is the demand capped by
the total offered quantity. -/
theorem acceptOffers_fst : ∀ (l : List SupplyOffer) (demand : ℚ), 0 ≤ demand →
    (∀ o ∈ l, 0 ≤ o.quantity) →
    (acceptOffers demand l).1 = min demand (offeredTotal l)
  | [], demand, hd, _ => by
    simp [acceptOffers, offeredTotal_nil, min_eq_right hd]
  | o :: rest, demand, hd, hq => by
    have hrest : ∀ x ∈ rest, 0 ≤ x.quantity := fun x hx => hq x (List.mem_cons_of_mem o hx)
    have ho : 0 ≤ o.quantity := hq o (List.mem_cons_self o rest)
    have htot : 0 ≤ offeredTotal rest := offeredTotal_nonneg rest hrest
    by_cases h0 : demand ≤ 0
    · have hdz : demand = 0 := le_antisymm h0 hd
      subst hdz
      simp only [acceptOffers, if_pos le_rfl]
      rw [offeredTotal_cons]
      exact (min_eq_left (add_nonneg ho htot)).symm
    · by_cases h1 : demand ≤ o.quantity
      · simp only [acceptOffers, if_neg h0, if_pos h1]
        rw [offeredTotal_cons]
        exact (min_eq_left (h1.trans (le_add_of_nonneg_right htot))).symm
      · simp only [acceptOffers, if_neg h0, if_neg h1]
        rw [acceptOffers_fst rest (demand - o.quantity)
          (by linarith [not_le.mp h1]) hrest]
        rw [← min_add_add_left, offeredTotal_cons]
        have hcancel : o.quantity + (demand - o.quantity) = demand := by ring
        rw [hcancel]

/-- When the total offered quantity is below demand, the acceptance walk
accepts every offer in order and clears the whole offered total. -/
theorem acceptOffers_all : ∀ (l : List SupplyOffer) (demand : ℚ),
    (∀ o ∈ l, 0 ≤ o.quantity) → offeredTotal l < demand →
    acceptOffers demand l = (offeredTotal l, l)
  | [], demand, _, _ => by
    simp [acceptOffers, offeredTotal_nil]
  | o :: rest, demand, hq, h => by
    have hrest : ∀ x ∈ rest, 0 ≤ x.quantity := fun x hx => hq x (List.mem_cons_of_mem o hx)
    have ho : 0 ≤ o.quantity := hq o (List.mem_cons_self o rest)
    have htot : 0 ≤ offeredTotal rest := offeredTotal_nonneg rest hrest
    rw [offeredTotal_cons] at h
    have h0 : ¬ demand ≤ 0 := not_le.mpr (lt_of_le_of_lt (add_nonneg ho htot) h)
    have h1 : ¬ demand ≤ o.quantity :=
      not_le.mpr (lt_of_le_of_lt (le_add_of_nonneg_right htot) h)
    simp only [acceptOffers, if_neg h0, if_neg h1]
    rw [acceptOffers_all rest (demand - o.quantity) hrest (by linarith)]
    rw [offeredTotal_cons]

/-- The last element of an option-valued last lookup is a member of the
list. -/
theorem mem_of_getLast?_eq {α : Type} {l : List α} {y : α}
    (h : l.getLast? = some y) : y ∈ l := by
  rcases List.mem_getLast?_eq_getLast (show y ∈ l.getLast? from h) with ⟨hne, hy⟩
  rw [hy]
  exact List.getLast_mem hne

/-- In a merit-ordered list the last offer has the maximal price. -/
theorem sorted_getLast_price_max : ∀ (l : List SupplyOffer), List.Sorted offerLE l →
    ∀ (y : SupplyOffer), l.getLast? = some y → ∀ x ∈ l, x.price ≤ y.price
  | [], _, y, h => by simp at h
  | [a], _, y, h => by
    intro x hx
    have hy : a = y := by simpa using h
    have hx' : x = a := by simpa using hx
    rw [hx', hy]
  | a :: b :: t, hs, y, h => by
    intro x hx
    have hs' := List.sorted_cons.mp hs
    have hlast : (b :: t).getLast? = some y := by
      rw [← List.getLast?_cons_cons (l := t) (a := a) (b := b)]
      exact h
    rcases List.mem_cons.mp hx with rfl | hx'
    · exact offerLE_price (hs'.1 y (mem_of_getLast?_eq hlast))
    · exact sorted_getLast_price_max (b :: t) hs'.2 y hlast x hx'

/-- C1: for each load period the cleared quantity never exceeds the total
offered quantity; it equals demand exactly whenever total offers cover
demand; and with insufficient supply the cleared quantity is the whole
offered total, the result carries the supply-shortfall flag (the clearing
function is total, there is no error outcome), every offer is accepted in
merit order, and the clearing price is the price of the most expensive
accepted offer. -/
theorem clearPeriod_correct (demand : ℚ) (offers : List SupplyOffer)
    (hd : 0 ≤ demand) (hq : ∀ o ∈ offers, 0 ≤ o.quantity) :
    (clearPeriod demand offers).cleared_quantity ≤ offeredTotal offers ∧
    (demand ≤ offeredTotal offers →
      (clearPeriod demand offers).cleared_quantity = demand) ∧
    (offeredTotal offers < demand →
      (clearPeriod demand offers).cleared_quantity = offeredTotal offers ∧
      (clearPeriod demand offers).shortfall = true ∧
      (clearPeriod demand offers).accepted_ids =
        (List.insertionSort offerLE offers).map (fun o => o.plant_id) ∧
      (offers ≠ [] → ∃ m ∈ offers,
        (clearPeriod demand offers).clearing_price = m.price ∧
        ∀ o ∈ offers, o.price ≤ m.price)) := by
  have hperm : (List.insertionSort offerLE offers).Perm offers :=
    List.perm_insertionSort offerLE offers
  have hq' : ∀ o ∈ List.insertionSort offerLE offers, 0 ≤ o.quantity :=
    fun o ho => hq o (hperm.subset ho)
  have htq : offeredTotal (List.insertionSort offerLE offers) = offeredTotal offers :=
    offeredTotal_perm hperm
  have hcq : (clearPeriod demand offers).cleared_quantity =
      min demand (offeredTotal offers) := by
    simp only [clearPeriod]
    rw [acceptOffers_fst (List.insertionSort offerLE offers) demand hd hq', htq]
  refine ⟨?_, ?_, ?_⟩
  · rw [hcq]; exact min_le_right _ _
  · intro h; rw [hcq]; exact min_eq_left h
  · intro h
    have hall : acceptOffers demand (List.insertionSort offerLE offers) =
        (offeredTotal (List.insertionSort offerLE offers),
          List.insertionSort offerLE offers) :=
      acceptOffers_all (List.insertionSort offerLE offers) demand hq'
        (by rw [htq]; exact h)
    refine ⟨by rw [hcq]; exact min_eq_right (le_of_lt h), ?_, ?_, ?_⟩
    · simp only [clearPeriod]
      exact decide_eq_true h
    · simp only [clearPeriod, hall]
    · intro hne
      have hsne : List.insertionSort offerLE offers ≠ [] := by
        intro hnil
        rw [hnil] at hperm
        exact hne (List.nil_perm.mp hperm)
      have hm : (List.insertionSort offerLE offers).getLast? =
          some ((List.insertionSort offerLE offers).getLast hsne) :=
        List.getLast?_eq_getLast_of_ne_nil hsne
      refine ⟨(List.insertionSort offerLE offers).getLast hsne,
        hperm.subset (mem_of_getLast?_eq hm), ?_, ?_⟩
      · simp only [clearPeriod, hall]
        rw [hm]
        rfl
      · intro o ho
        exact sorted_getLast_price_max (List.insertionSort offerLE offers)
          (List.sorted_insertionSort offerLE offers) _ hm o (hperm.mem_iff.mpr ho)

/-- Offers of the worked example in the spec: plant a 400 MW at 45, plant
b 200 MW at 85, plant c 150 MW at 0. -/
def c1offers : List SupplyOffer :=
  [⟨"plant_a", 400, 45⟩, ⟨"plant_b", 200, 85⟩, ⟨"plant_c", 150, 0⟩]

/-- C1 witness: demand 1000 MW against 750 MW of offers is a shortfall;
everything clears in merit order and the price is set by the most
expensive accepted offer. -/
theorem clearPeriod_correct_witness :
    ((0 : ℚ) ≤ 1000) ∧ (∀ o ∈ c1offers, 0 ≤ o.quantity) ∧
    (offeredTotal c1offers < 1000) ∧
    ((clearPeriod 1000 c1offers).cleared_quantity = offeredTotal c1offers ∧
     (clearPeriod 1000 c1offers).shortfall = true ∧
     (clearPeriod 1000 c1offers).accepted_ids =
       (List.insertionSort offerLE c1offers).map (fun o => o.plant_id) ∧
     (c1offers ≠ [] → ∃ m ∈ c1offers,
       (clearPeriod 1000 c1offers).clearing_price = m.price ∧
       ∀ o ∈ c1offers, o.price ≤ m.price)) :=
  ⟨by decide, by decide, by norm_num [offeredTotal, c1offers],
   (clearPeriod_correct 1000 c1offers (by decide) (by decide)).2.2
     (by norm_num [offeredTotal, c1offers])⟩

end MarketGame
